import Mathlib

/-!
Verification of the semantic-processor core of the wp-sinople-theme
repository (src/wasm/semantic_processor/src/lib.rs).

The triple store of the source is an in-memory graph; per the
specification the store is an insertion-ordered sequence of triples, so it
is embedded here as a `List Triple`.  The namespace map is embedded as an
association list (only keyed lookup is ever performed on it).  The term
type mirrors the term representation used by the source (`SimpleTerm`):
IRIs, blank nodes, datatype-tagged literals, language-tagged literals and
variables; a plain literal is represented as a literal whose datatype tag
is the xsd string type, which is how the source represents it.
-/

/-- RDF term, mirroring the source term representation: IRI, blank node,
datatype-tagged literal (value, datatype IRI), language-tagged literal
(value, language tag), or variable. -/
inductive Term where
  | Iri : String → Term
  | BlankNode : String → Term
  | LiteralDatatype : String → String → Term
  | LiteralLanguage : String → String → Term
  | Variable : String → Term
deriving DecidableEq

/-- A stored triple: subject, predicate, object. -/
structure Triple where
  s : Term
  p : Term
  o : Term
deriving DecidableEq

/-- A gloss record produced by the gloss collection. -/
structure Gloss where
  id : String
  text : String
  language : String
  position : Option Nat
deriving DecidableEq

/-- A construct view record. -/
structure Construct where
  id : String
  label : String
  description : Option String
  glosses : List Gloss
  relationships : List String
deriving DecidableEq

/-- An entanglement view record. -/
structure Entanglement where
  id : String
  label : String
  source : String
  target : String
  relationship_type : String
  description : Option String
deriving DecidableEq

/-- A character view record. -/
structure Character where
  id : String
  name : String
  description : Option String
  constructs : List String
deriving DecidableEq

/-- A node of the visualization network graph. -/
structure GraphNode where
  id : String
  label : String
  node_type : String
deriving DecidableEq

/-- An edge of the visualization network graph. -/
structure GraphEdge where
  source : String
  target : String
  label : String
deriving DecidableEq

/-- The visualization network graph. -/
structure NetworkGraph where
  nodes : List GraphNode
  edges : List GraphEdge
deriving DecidableEq

/-- Processor state: the triple store (insertion-ordered) and the
namespace registry. -/
structure SemanticProcessor where
  graph : List Triple
  namespaces : List (String × String)
deriving DecidableEq

/-- Keyed lookup in the namespace registry (the only operation the source
performs on its namespace map). -/
def lookupNs : List (String × String) → String → Option String
  | [], _ => none
  | (k, v) :: rest, key => if k = key then some v else lookupNs rest key

/-- Split a string at the first occurrence of a character, mirroring the
split-once operation of the source; yields none when the character does
not occur. -/
def splitOnceChar (c : Char) : List Char → Option (List Char × List Char)
  | [] => none
  | x :: xs =>
    if x = c then some ([], xs)
    else (splitOnceChar c xs).map (fun pr => (x :: pr.1, pr.2))

/-- String version of `splitOnceChar`. -/
def splitOnce (c : Char) (str : String) : Option (String × String) :=
  (splitOnceChar c str.data).map (fun pr => (String.mk pr.1, String.mk pr.2))

/-- Whether a character list is a valid IRI scheme: nonempty, starts with
a letter, and continues with letters, digits, plus, minus or dot. -/
def isValidScheme : List Char → Bool
  | [] => false
  | c :: rest => c.isAlpha && rest.all (fun d => d.isAlphanum || d = '+' || d = '-' || d = '.')

/-- Walk the first segment of an IRI reference: if a colon is reached
before any slash, question mark or hash, the text before it must be a
valid scheme; otherwise the reference is relative and accepted. -/
def firstSegOk : List Char → List Char → Bool
  | [], _ => true
  | c :: rest, acc =>
    if c = ':' then isValidScheme acc.reverse
    else if c = '/' || c = '?' || c = '#' then true
    else firstSegOk rest (c :: acc)

/-- Modelled from the spec: the IRI-syntax validation performed by the
external IRI library when the source parses a string into an IRI term
(spec section 4.2: malformed IRI text fails validation).  The model
implements the top-level split of the IRI-reference grammar: a reference
is accepted when it carries a well-formed scheme, or when no colon occurs
in its first path segment (a relative reference); a colon in the first
segment whose preceding text is not a valid scheme — e.g. the blank-node
rendering form starting with an underscore and a colon — is rejected,
exactly as the grammar requires. -/
def iriRefValid (str : String) : Bool :=
  firstSegOk str.data []

/-- Parse a string as an IRI, falling back to the empty IRI on failure:
mirrors the source pattern of unwrapping a failed IRI parse into an
empty-string IRI. -/
def parseIriOrEmpty (str : String) : String :=
  if iriRefValid str then str else ""

/-- The namespace registry contents installed at construction by the
source constructor (five inserts into a fresh map). -/
def initNamespaces : List (String × String) :=
  [("sn", "https://sinople.org/ontology#"),
   ("rdf", "https://www.w3.org/1999/02/22-rdf-syntax-ns#"),
   ("rdfs", "https://www.w3.org/2000/01/rdf-schema#"),
   ("owl", "https://www.w3.org/2002/07/owl#"),
   ("xsd", "https://www.w3.org/2001/XMLSchema#")]

/-- Construction: empty graph, seeded namespace registry. -/
def SemanticProcessor.new : SemanticProcessor :=
  ⟨[], initNamespaces⟩

/-- Create a term from a namespaced string such as a prefixed name: when
the string splits at a colon and the part before the colon is a
registered namespace key, the term is the IRI of the base joined with the
local part; otherwise the whole string is treated as a full IRI. -/
def make_term (ns : List (String × String)) (namespaced : String) : Term :=
  match splitOnce ':' namespaced with
  | some (pfx, loc) =>
    match lookupNs ns pfx with
    | some base => Term.Iri (parseIriOrEmpty (base ++ loc))
    | none => Term.Iri (parseIriOrEmpty namespaced)
  | none => Term.Iri (parseIriOrEmpty namespaced)

/-- Convert a term to a string: an IRI yields its text, both literal
kinds yield the literal value, a blank node yields an underscore-colon
form, and anything else yields the empty string. -/
def term_to_string : Term → String
  | Term.Iri u => u
  | Term.LiteralDatatype v _ => v
  | Term.LiteralLanguage v _ => v
  | Term.BlankNode b => "_:" ++ b
  | Term.Variable _ => ""

/-- Term equality of the source: structural equality of the term
representation (same variant, equal fields). -/
def term_equals (a b : Term) : Bool :=
  decide (a = b)

/-- Split a character list at every occurrence of a separator character;
always yields at least one (possibly empty) piece, like the split
iterator of the source language. -/
def splitChar (c : Char) : List Char → List (List Char)
  | [] => [[]]
  | x :: xs =>
    if x = c then [] :: splitChar c xs
    else
      match splitChar c xs with
      | [] => [[x]]
      | piece :: rest => (x :: piece) :: rest

/-- String version of `splitChar`. -/
def splitStr (c : Char) (str : String) : List String :=
  (splitChar c str.data).map String.mk

/-- Extract the local name from an IRI: the last piece of the split at
hash signs; if that split yields no last piece, the last piece of the
split at slashes; otherwise the input itself.  (Mirrors the source
exactly, including the fact that the split at hash signs always yields at
least one piece.) -/
def extract_local_name (iri : String) : String :=
  match (splitStr '#' iri).getLast? with
  | some piece => piece
  | none =>
    match (splitStr '/' iri).getLast? with
    | some piece => piece
    | none => iri

/-- The loop condition of the single-valued property lookup: the triple's
subject equals the parsed subject IRI and its predicate equals the
resolved predicate term. -/
def govMatches (sp : SemanticProcessor) (subject predicate : String) (t : Triple) : Bool :=
  term_equals t.s (Term.Iri subject) && term_equals t.p (make_term sp.namespaces predicate)

/-- Single-valued property lookup (first-match): parse the subject as an
IRI (returning none on parse failure), resolve the predicate, and return
the stringified object of the first matching triple in store order, or
none when no triple matches. -/
def get_object_value (sp : SemanticProcessor) (subject predicate : String) : Option String :=
  if iriRefValid subject then
    match sp.graph.find? (govMatches sp subject predicate) with
    | some t => some (term_to_string t.o)
    | none => none
  else none

/-- Gloss collection: the subject is parsed with empty-IRI fallback; every
triple whose subject and gloss predicate match yields one gloss record
whose id is the subject text followed by a hash-gloss suffix, whose
language is the constant default, and whose position is absent. -/
def get_glosses (sp : SemanticProcessor) (construct_id : String) : List Gloss :=
  let subjTerm := Term.Iri (parseIriOrEmpty construct_id)
  let hasGloss := make_term sp.namespaces "sn:hasGloss"
  sp.graph.filterMap (fun t =>
    if term_equals t.s subjTerm && term_equals t.p hasGloss then
      some ⟨construct_id ++ "#gloss", term_to_string t.o, "en", none⟩
    else none)

/-- Reverse lookup: for every triple whose object STRINGIFIES to the given
construct id and whose predicate is the source- or target-reference
predicate, collect the stringified subject, in store order. -/
def get_relationships (sp : SemanticProcessor) (construct_id : String) : List String :=
  let hasSource := make_term sp.namespaces "sn:hasSource"
  let hasTarget := make_term sp.namespaces "sn:hasTarget"
  sp.graph.filterMap (fun t =>
    if term_to_string t.o = construct_id then
      if term_equals t.p hasSource || term_equals t.p hasTarget then
        some (term_to_string t.s)
      else none
    else none)

/-- Multi-valued property collection for a character's constructs. -/
def get_character_constructs (sp : SemanticProcessor) (character_id : String) : List String :=
  let subjTerm := Term.Iri (parseIriOrEmpty character_id)
  let hasConstruct := make_term sp.namespaces "sn:hasConstruct"
  sp.graph.filterMap (fun t =>
    if term_equals t.s subjTerm && term_equals t.p hasConstruct then
      some (term_to_string t.o)
    else none)

/-- Body of the construct-view loop for one typed subject. -/
def constructFor (sp : SemanticProcessor) (subject_iri : String) : Construct :=
  ⟨subject_iri,
   (get_object_value sp subject_iri "rdfs:label").getD "",
   get_object_value sp subject_iri "rdfs:comment",
   get_glosses sp subject_iri,
   get_relationships sp subject_iri⟩

/-- Construct view: one record per triple typing its subject as a
construct, in store order. -/
def query_constructs (sp : SemanticProcessor) : List Construct :=
  let construct_type := make_term sp.namespaces "sn:Construct"
  let rdf_type := make_term sp.namespaces "rdf:type"
  sp.graph.filterMap (fun t =>
    if term_equals t.p rdf_type && term_equals t.o construct_type then
      some (constructFor sp (term_to_string t.s))
    else none)

/-- Body of the entanglement-view loop for one typed subject. -/
def entanglementFor (sp : SemanticProcessor) (subject_iri : String) : Entanglement :=
  ⟨subject_iri,
   (get_object_value sp subject_iri "rdfs:label").getD "",
   (get_object_value sp subject_iri "sn:hasSource").getD "",
   (get_object_value sp subject_iri "sn:hasTarget").getD "",
   (get_object_value sp subject_iri "sn:relationshipType").getD "related",
   get_object_value sp subject_iri "rdfs:comment"⟩

/-- Entanglement view: one record per triple typing its subject as an
entanglement, in store order. -/
def query_entanglements (sp : SemanticProcessor) : List Entanglement :=
  let entanglement_type := make_term sp.namespaces "sn:Entanglement"
  let rdf_type := make_term sp.namespaces "rdf:type"
  sp.graph.filterMap (fun t =>
    if term_equals t.p rdf_type && term_equals t.o entanglement_type then
      some (entanglementFor sp (term_to_string t.s))
    else none)

/-- Body of the character-view loop for one typed subject. -/
def characterFor (sp : SemanticProcessor) (subject_iri : String) : Character :=
  ⟨subject_iri,
   (get_object_value sp subject_iri "rdfs:label").getD "",
   get_object_value sp subject_iri "rdfs:comment",
   get_character_constructs sp subject_iri⟩

/-- Character view: one record per triple typing its subject as a
character, in store order. -/
def query_characters (sp : SemanticProcessor) : List Character :=
  let character_type := make_term sp.namespaces "sn:Character"
  let rdf_type := make_term sp.namespaces "rdf:type"
  sp.graph.filterMap (fun t =>
    if term_equals t.p rdf_type && term_equals t.o character_type then
      some (characterFor sp (term_to_string t.s))
    else none)

/-- Whether one character list starts with another. -/
def listStartsWith : List Char → List Char → Bool
  | _, [] => true
  | [], _ :: _ => false
  | x :: xs, y :: ys => x = y && listStartsWith xs ys

/-- Whether a character list contains another as a contiguous sublist. -/
def listContainsSub (l pat : List Char) : Bool :=
  match l with
  | [] => listStartsWith [] pat
  | _ :: rest => listStartsWith l pat || listContainsSub rest pat

/-- Substring containment of the source's contains check. -/
def strContains (str pat : String) : Bool :=
  listContainsSub str.data pat.data

/-- Classification of a node by the text of its type IRI: the first of
the three entity-type substrings found wins, otherwise the catch-all. -/
def nodeTypeOf (object_iri : String) : String :=
  if strContains object_iri "Construct" then "construct"
  else if strContains object_iri "Character" then "character"
  else if strContains object_iri "Entanglement" then "entanglement"
  else "other"

/-- Body of the node pass for one type-assertion triple. -/
def nodeFor (sp : SemanticProcessor) (t : Triple) : GraphNode :=
  let subject_iri := term_to_string t.s
  let object_iri := term_to_string t.o
  ⟨subject_iri,
   (get_object_value sp subject_iri "rdfs:label").getD (extract_local_name subject_iri),
   nodeTypeOf object_iri⟩

/-- Body of the edge pass for one entanglement-typed subject: an edge is
emitted only when both a source and a target resolve; its label is the
relationship type, defaulting to the related label. -/
def edgeFor (sp : SemanticProcessor) (entanglement_iri : String) : Option GraphEdge :=
  match get_object_value sp entanglement_iri "sn:hasSource",
        get_object_value sp entanglement_iri "sn:hasTarget" with
  | some src, some tgt =>
    some ⟨src, tgt, (get_object_value sp entanglement_iri "sn:relationshipType").getD "related"⟩
  | _, _ => none

/-- Network graph projection: the node pass emits one node per
type-assertion triple (no deduplication); the edge pass emits one edge per
entanglement-typed subject with both endpoints resolvable. -/
def generate_network_graph (sp : SemanticProcessor) : NetworkGraph :=
  let rdf_type := make_term sp.namespaces "rdf:type"
  let entanglement_type := make_term sp.namespaces "sn:Entanglement"
  ⟨sp.graph.filterMap (fun t =>
      if term_equals t.p rdf_type then some (nodeFor sp t) else none),
   sp.graph.filterMap (fun t =>
      if term_equals t.p rdf_type && term_equals t.o entanglement_type then
        edgeFor sp (term_to_string t.s)
      else none)⟩

/-- Number of stored triples. -/
def triple_count (sp : SemanticProcessor) : Nat :=
  sp.graph.length

/-- Clear: replace the graph with a fresh empty one, leaving the
namespace registry untouched. -/
def SemanticProcessor.clear (sp : SemanticProcessor) : SemanticProcessor :=
  ⟨[], sp.namespaces⟩

/-- Number of network-graph nodes carrying a given id. -/
def nodesWithId (sp : SemanticProcessor) (idStr : String) : Nat :=
  ((generate_network_graph sp).nodes.filter (fun n => n.id = idStr)).length

/-- Number of stored type-assertion triples for a given subject term. -/
def typeAssertions (sp : SemanticProcessor) (subj : Term) : Nat :=
  (sp.graph.filter (fun t =>
    term_equals t.s subj && term_equals t.p (make_term sp.namespaces "rdf:type"))).length

/-! ## Helper lemmas -/

/-- A filter-map whose body is an if-then-some is a filter followed by a
map. -/
theorem filterMap_if_eq_map_filter {α β : Type} (g : α → Option β) (R : α → Bool) (f : α → β)
    (h : ∀ x, g x = if R x then some (f x) else none) :
    ∀ l : List α, l.filterMap g = (l.filter R).map f := by
  intro l
  induction l with
  | nil => simp
  | cons x xs ih =>
    rw [List.filterMap_cons, h x, List.filter_cons]
    by_cases hx : R x = true
    · simp [hx, ih]
    · simp [hx, ih]

/-- Finding in a list that splits as prefix-element-suffix, with no hit in
the prefix and a hit at the element, yields the element. -/
theorem find?_append_cons {α : Type} (p : α → Bool) (g1 : List α) (t : α) (g2 : List α)
    (h1 : ∀ u ∈ g1, p u = false) (ht : p t = true) :
    List.find? p (g1 ++ t :: g2) = some t := by
  induction g1 with
  | nil => simpa using List.find?_cons_of_pos g2 ht
  | cons u us ih =>
    have hu : ¬ p u = true := by simp [h1 u (List.mem_cons_self u us)]
    rw [List.cons_append, List.find?_cons_of_neg _ hu]
    exact ih (fun v hv => h1 v (List.mem_cons_of_mem u hv))

/-- Counting the survivors of a filter over a filter-map via a combined
condition on the original list. -/
theorem length_filter_filterMap {α β : Type} (g : α → Option β) (P : β → Bool) (Q : α → Bool)
    (l : List α) (h : ∀ x ∈ l, ((g x).map P).getD false = Q x) :
    ((l.filterMap g).filter P).length = (l.filter Q).length := by
  induction l with
  | nil => simp
  | cons x xs ih =>
    have hx := h x (List.mem_cons_self x xs)
    have ihx := ih (fun y hy => h y (List.mem_cons_of_mem x hy))
    rw [List.filterMap_cons]
    cases hg : g x with
    | none =>
      rw [hg] at hx
      simp only [Option.map_none', Option.getD_none] at hx
      rw [List.filter_cons, if_neg (by rw [← hx]; simp)]
      exact ihx
    | some bb =>
      rw [hg] at hx
      simp only [Option.map_some', Option.getD_some] at hx
      rw [List.filter_cons, List.filter_cons]
      by_cases hPb : P bb = true
      · rw [if_pos hPb, if_pos (by rw [← hx]; exact hPb)]
        simpa using ihx
      · rw [if_neg hPb, if_neg (by rw [← hx]; exact hPb)]
        exact ihx

/-- The rendering of a blank node never passes IRI validation: its first
segment contains a colon and the text before the colon is an underscore,
which is not a valid scheme. -/
theorem iriRefValid_blank (b : String) : iriRefValid ("_:" ++ b) = false := by
  have hdata : ("_:" ++ b).data = '_' :: ':' :: b.data := by
    rw [String.data_append]
    rfl
  rw [iriRefValid, hdata]
  rfl

/-- Single-valued lookup on a blank-node rendering always fails: the
subject string does not parse as an IRI. -/
theorem get_object_value_blank (sp : SemanticProcessor) (b π : String) :
    get_object_value sp ("_:" ++ b) π = none := by
  unfold get_object_value
  rw [if_neg]
  rw [iriRefValid_blank]
  exact Bool.false_ne_true

/-- Single-valued lookup yields none when no stored triple satisfies the
loop condition. -/
theorem get_object_value_none (sp : SemanticProcessor) (σ π : String)
    (h : ∀ t ∈ sp.graph, govMatches sp σ π t = false) :
    get_object_value sp σ π = none := by
  unfold get_object_value
  by_cases hv : iriRefValid σ = true
  · rw [if_pos hv]
    have hfind : sp.graph.find? (govMatches sp σ π) = none :=
      List.find?_eq_none.mpr (by intro x hx; simp [h x hx])
    rw [hfind]
  · rw [if_neg hv]

/-- The node list of the projection, unfolded. -/
theorem network_nodes (sp : SemanticProcessor) :
    (generate_network_graph sp).nodes = sp.graph.filterMap (fun t =>
      if term_equals t.p (make_term sp.namespaces "rdf:type") then some (nodeFor sp t)
      else none) := rfl

/-! ## Claim theorems -/

/-- C1: for every store and every subject and predicate string, the
single-valued lookup returns the object of the first matching triple in
store order (insertion order), and returns none when no triple matches;
in particular a second value for the same subject and predicate inserted
later is never visible. -/
theorem c1_first_object (sp : SemanticProcessor) (σ π : String)
    (hσ : iriRefValid σ = true) :
    (∀ g1 t g2, sp.graph = g1 ++ t :: g2 → govMatches sp σ π t = true →
      (∀ u ∈ g1, govMatches sp σ π u = false) →
      get_object_value sp σ π = some (term_to_string t.o))
    ∧ ((∀ t ∈ sp.graph, govMatches sp σ π t = false) →
      get_object_value sp σ π = none) := by
  constructor
  · intro g1 t g2 hsplit hmt hg1
    unfold get_object_value
    rw [if_pos hσ, hsplit, find?_append_cons _ g1 t g2 hg1 hmt]
  · exact get_object_value_none sp σ π

/-- Store for the C1 witness: two label triples for the same subject, the
first carrying the value that must win. -/
def spC1 : SemanticProcessor :=
  ⟨[⟨Term.Iri "https://example.org/A", make_term initNamespaces "rdfs:label",
     Term.LiteralDatatype "first" "https://www.w3.org/2001/XMLSchema#string"⟩,
    ⟨Term.Iri "https://example.org/A", make_term initNamespaces "rdfs:label",
     Term.LiteralDatatype "second" "https://www.w3.org/2001/XMLSchema#string"⟩],
   initNamespaces⟩

/-- C1 witness: with two values stored for the same subject and
predicate, the lookup returns the first one. -/
theorem c1_first_object_witness :
    iriRefValid "https://example.org/A" = true
    ∧ get_object_value spC1 "https://example.org/A" "rdfs:label" = some "first" := by
  refine ⟨by decide, ?_⟩
  exact (c1_first_object spC1 "https://example.org/A" "rdfs:label" (by decide)).1
    []
    ⟨Term.Iri "https://example.org/A", make_term initNamespaces "rdfs:label",
     Term.LiteralDatatype "first" "https://www.w3.org/2001/XMLSchema#string"⟩
    [⟨Term.Iri "https://example.org/A", make_term initNamespaces "rdfs:label",
      Term.LiteralDatatype "second" "https://www.w3.org/2001/XMLSchema#string"⟩]
    rfl (by decide) (by decide)

/-- Store for the C2 counterexample: one source-reference triple whose
object is a plain literal whose text looks like an IRI. -/
def spC2 : SemanticProcessor :=
  ⟨[⟨Term.Iri "https://example.org/S", make_term initNamespaces "sn:hasSource",
     Term.LiteralDatatype "https://example.org/X" "https://www.w3.org/2001/XMLSchema#string"⟩],
   initNamespaces⟩

/-- C2 counterexample: the stored object is a literal that is NOT
term-equal to the IRI with the same text, yet the reverse lookup for that
text still returns the triple's subject — the lookup compares the
stringified object, not the term. -/
theorem c2_counterexample :
    term_equals
        (Term.LiteralDatatype "https://example.org/X" "https://www.w3.org/2001/XMLSchema#string")
        (Term.Iri "https://example.org/X") = false
    ∧ get_relationships spC2 "https://example.org/X" = ["https://example.org/S"] := by
  constructor
  · decide
  · decide

/-- C2 amended: the reverse lookup returns exactly the stringified
subjects of the triples whose object STRINGIFIES to the given id and
whose predicate is the source- or target-reference predicate, in store
order. -/
theorem c2_relationships_amended (sp : SemanticProcessor) (construct_id : String) :
    get_relationships sp construct_id =
      ((sp.graph.filter (fun t =>
          decide (term_to_string t.o = construct_id) &&
          (term_equals t.p (make_term sp.namespaces "sn:hasSource") ||
           term_equals t.p (make_term sp.namespaces "sn:hasTarget")))).map
        (fun t => term_to_string t.s)) := by
  unfold get_relationships
  apply filterMap_if_eq_map_filter
  intro t
  by_cases h1 : term_to_string t.o = construct_id
  · by_cases h2 : (term_equals t.p (make_term sp.namespaces "sn:hasSource") ||
        term_equals t.p (make_term sp.namespaces "sn:hasTarget")) = true
    · simp [h1, h2]
    · simp [h1, h2]
  · simp [h1]

/-- C3: term equality holds exactly when the two terms are structurally
identical (same variant, equal fields); an IRI never equals a plain
literal with the same text, and language-tagged literals with different
tags never compare equal. -/
theorem c3_term_equality :
    (∀ a b : Term, term_equals a b = true ↔ a = b)
    ∧ term_equals (Term.Iri "http://x")
        (Term.LiteralDatatype "http://x" "https://www.w3.org/2001/XMLSchema#string") = false
    ∧ term_equals (Term.LiteralLanguage "a" "en") (Term.LiteralLanguage "a" "fr") = false := by
  refine ⟨fun a b => ?_, by decide, by decide⟩
  simp [term_equals]

/-- C4 counterexample: at construction the registry maps the rdf prefix
to an https IRI, not to the standard http form the claim names. -/
theorem c4_counterexample :
    lookupNs SemanticProcessor.new.namespaces "rdf"
        = some "https://www.w3.org/1999/02/22-rdf-syntax-ns#"
    ∧ lookupNs SemanticProcessor.new.namespaces "rdf"
        ≠ some "http://www.w3.org/1999/02/22-rdf-syntax-ns#" := by
  constructor
  · decide
  · decide

/-- C4 amended: at construction the registry is seeded with exactly the
five prefixes sn, rdf, rdfs, owl, xsd, mapped to the https variants of
their base IRIs, and prefixed names resolve against those bases. -/
theorem c4_seed_amended :
    SemanticProcessor.new.namespaces.map Prod.fst = ["sn", "rdf", "rdfs", "owl", "xsd"]
    ∧ lookupNs SemanticProcessor.new.namespaces "sn" = some "https://sinople.org/ontology#"
    ∧ lookupNs SemanticProcessor.new.namespaces "rdf"
        = some "https://www.w3.org/1999/02/22-rdf-syntax-ns#"
    ∧ lookupNs SemanticProcessor.new.namespaces "rdfs"
        = some "https://www.w3.org/2000/01/rdf-schema#"
    ∧ lookupNs SemanticProcessor.new.namespaces "owl" = some "https://www.w3.org/2002/07/owl#"
    ∧ lookupNs SemanticProcessor.new.namespaces "xsd" = some "https://www.w3.org/2001/XMLSchema#"
    ∧ make_term SemanticProcessor.new.namespaces "rdf:type"
        = Term.Iri "https://www.w3.org/1999/02/22-rdf-syntax-ns#type" := by
  refine ⟨by decide, by decide, by decide, by decide, by decide, by decide, by decide⟩

/-- C5: evaluation of the local-name extraction at the failing input: on
an IRI with slashes but no hash sign the code returns the whole IRI
unchanged instead of the text after the last slash, because the split at
hash signs always yields a last piece, so the slash fallback is dead
code; the hash-sign branch itself behaves as claimed. -/
theorem c5_local_name_code_eval :
    extract_local_name "https://example.org/path" = "https://example.org/path"
    ∧ extract_local_name "https://example.org/path" ≠ "path"
    ∧ extract_local_name "https://example.org/onto#Thing" = "Thing" := by
  refine ⟨by decide, by decide, by decide⟩

/-- C6: an entanglement-typed subject (IRI or blank node) with no
relationship-type triple gets the default related label, both in the
entanglement view record built for it and in any network-graph edge
emitted for it. -/
theorem c6_default_relationship (sp : SemanticProcessor) (s : Term)
    (hkind : (∃ u, s = Term.Iri u) ∨ (∃ b, s = Term.BlankNode b))
    (htyped : (⟨s, make_term sp.namespaces "rdf:type",
        make_term sp.namespaces "sn:Entanglement"⟩ : Triple) ∈ sp.graph)
    (hno : ∀ t ∈ sp.graph,
        ¬ (t.s = s ∧ t.p = make_term sp.namespaces "sn:relationshipType")) :
    (entanglementFor sp (term_to_string s)).relationship_type = "related"
    ∧ (∀ e, edgeFor sp (term_to_string s) = some e → e.label = "related") := by
  have hgov : get_object_value sp (term_to_string s) "sn:relationshipType" = none := by
    rcases hkind with ⟨u, rfl⟩ | ⟨b, rfl⟩
    · apply get_object_value_none
      intro t ht
      rw [Bool.eq_false_iff]
      intro hg
      rw [govMatches, Bool.and_eq_true] at hg
      obtain ⟨h1, h2⟩ := hg
      exact hno t ht ⟨of_decide_eq_true h1, of_decide_eq_true h2⟩
    · exact get_object_value_blank sp b "sn:relationshipType"
  constructor
  · simp [entanglementFor, hgov]
  · intro e he
    unfold edgeFor at he
    cases hsrc : get_object_value sp (term_to_string s) "sn:hasSource" with
    | none => rw [hsrc] at he; exact absurd he (by simp)
    | some src =>
      cases htgt : get_object_value sp (term_to_string s) "sn:hasTarget" with
      | none => rw [hsrc, htgt] at he; exact absurd he (by simp)
      | some tgt =>
        rw [hsrc, htgt, hgov] at he
        simp only [Option.getD_none, Option.some.injEq] at he
        rw [← he]

/-- Store for the C6 witness: one entanglement with source and target but
no relationship type. -/
def spC6 : SemanticProcessor :=
  ⟨[⟨Term.Iri "https://example.org/E", make_term initNamespaces "rdf:type",
     make_term initNamespaces "sn:Entanglement"⟩,
    ⟨Term.Iri "https://example.org/E", make_term initNamespaces "sn:hasSource",
     Term.Iri "https://example.org/A"⟩,
    ⟨Term.Iri "https://example.org/E", make_term initNamespaces "sn:hasTarget",
     Term.Iri "https://example.org/B"⟩],
   initNamespaces⟩

/-- C6 witness: the concrete entanglement without a relationship type is
typed in the store and its view record carries the related default. -/
theorem c6_default_relationship_witness :
    ((⟨Term.Iri "https://example.org/E", make_term initNamespaces "rdf:type",
        make_term initNamespaces "sn:Entanglement"⟩ : Triple) ∈ spC6.graph)
    ∧ (entanglementFor spC6 "https://example.org/E").relationship_type = "related" := by
  refine ⟨by decide, ?_⟩
  exact (c6_default_relationship spC6 (Term.Iri "https://example.org/E")
    (Or.inl ⟨"https://example.org/E", rfl⟩) (by decide) (by decide)).1

/-- C7: the node pass performs no deduplication: provided no other stored
subject stringifies to the same id text, the number of network-graph
nodes carrying a subject's id equals the number of stored type-assertion
triples for that subject — one node per type-assertion triple. -/
theorem c7_no_dedup (sp : SemanticProcessor) (subj : Term)
    (halias : ∀ t ∈ sp.graph, term_to_string t.s = term_to_string subj → t.s = subj) :
    nodesWithId sp (term_to_string subj) = typeAssertions sp subj := by
  unfold nodesWithId typeAssertions
  rw [network_nodes]
  apply length_filter_filterMap
  intro t ht
  by_cases htype : term_equals t.p (make_term sp.namespaces "rdf:type") = true
  · rw [if_pos htype]
    simp only [Option.map_some', Option.getD_some]
    have hid : (nodeFor sp t).id = term_to_string t.s := rfl
    rw [hid, htype, Bool.and_true]
    rw [term_equals]
    rw [decide_eq_decide]
    constructor
    · exact halias t ht
    · intro hh; rw [hh]
  · rw [if_neg htype]
    simp only [Option.map_none', Option.getD_none]
    rw [Bool.not_eq_true] at htype
    rw [htype, Bool.and_false]

/-- Store for the C7 witness: one subject with two distinct type
assertions. -/
def spC7 : SemanticProcessor :=
  ⟨[⟨Term.Iri "https://example.org/A", make_term initNamespaces "rdf:type",
     make_term initNamespaces "sn:Construct"⟩,
    ⟨Term.Iri "https://example.org/A", make_term initNamespaces "rdf:type",
     make_term initNamespaces "sn:Character"⟩],
   initNamespaces⟩

/-- C7 witness: the subject with two distinct type triples yields exactly
two node entries sharing its id. -/
theorem c7_no_dedup_witness :
    typeAssertions spC7 (Term.Iri "https://example.org/A") = 2
    ∧ nodesWithId spC7 "https://example.org/A" = 2 := by
  have h := c7_no_dedup spC7 (Term.Iri "https://example.org/A") (by decide)
  exact ⟨by decide, h.trans (by decide)⟩

/-- C8: for a subject whose id text parses as an IRI, the gloss
collection yields exactly one record per gloss triple of that subject, in
store order; every record's id is the subject text followed by the
hash-gloss suffix (so all records of one subject share it), its language
is the constant default, and its position is always absent. -/
theorem c8_glosses (sp : SemanticProcessor) (construct_id : String)
    (hv : iriRefValid construct_id = true) :
    get_glosses sp construct_id =
      ((sp.graph.filter (fun t =>
          term_equals t.s (Term.Iri construct_id) &&
          term_equals t.p (make_term sp.namespaces "sn:hasGloss"))).map
        (fun t => (⟨construct_id ++ "#gloss", term_to_string t.o, "en", none⟩ : Gloss)))
    ∧ ∀ gl ∈ get_glosses sp construct_id,
        gl.id = construct_id ++ "#gloss" ∧ gl.language = "en" ∧ gl.position = none := by
  have hparse : parseIriOrEmpty construct_id = construct_id := by
    rw [parseIriOrEmpty, if_pos hv]
  have hmain : get_glosses sp construct_id =
      ((sp.graph.filter (fun t =>
          term_equals t.s (Term.Iri construct_id) &&
          term_equals t.p (make_term sp.namespaces "sn:hasGloss"))).map
        (fun t => (⟨construct_id ++ "#gloss", term_to_string t.o, "en", none⟩ : Gloss))) := by
    unfold get_glosses
    rw [hparse]
    exact filterMap_if_eq_map_filter _ _ _ (fun t => rfl) sp.graph
  refine ⟨hmain, ?_⟩
  intro gl hgl
  rw [hmain] at hgl
  obtain ⟨t, ht, rfl⟩ := List.mem_map.mp hgl
  exact ⟨rfl, rfl, rfl⟩

/-- Store for the C8 witness: one subject carrying two gloss triples. -/
def spC8 : SemanticProcessor :=
  ⟨[⟨Term.Iri "https://example.org/A", make_term initNamespaces "sn:hasGloss",
     Term.LiteralDatatype "g1" "https://www.w3.org/2001/XMLSchema#string"⟩,
    ⟨Term.Iri "https://example.org/A", make_term initNamespaces "sn:hasGloss",
     Term.LiteralDatatype "g2" "https://www.w3.org/2001/XMLSchema#string"⟩],
   initNamespaces⟩

/-- C8 witness: two gloss triples yield two records sharing the same
synthesized id, with the default language and no position. -/
theorem c8_glosses_witness :
    iriRefValid "https://example.org/A" = true
    ∧ get_glosses spC8 "https://example.org/A" =
        [⟨"https://example.org/A#gloss", "g1", "en", none⟩,
         ⟨"https://example.org/A#gloss", "g2", "en", none⟩] := by
  refine ⟨by decide, ?_⟩
  rw [(c8_glosses spC8 "https://example.org/A" (by decide)).1]
  decide

/-- C9: for an entity whose subject is a blank node, the derived id is
the underscore-colon rendering of the label, and — provided no stored
triple has the empty IRI as subject — every property lookup through that
id yields the absent or default value: single-valued lookups return none
(the id fails to re-parse as an IRI), so the construct view's label is
empty, its description absent, its glosses empty, the entanglement view's
source and target empty, and the character view's constructs empty. -/
theorem c9_blank_node_entity (sp : SemanticProcessor) (b : String)
    (hempty : ∀ t ∈ sp.graph, t.s ≠ Term.Iri "") :
    term_to_string (Term.BlankNode b) = "_:" ++ b
    ∧ (∀ π, get_object_value sp ("_:" ++ b) π = none)
    ∧ (constructFor sp ("_:" ++ b)).label = ""
    ∧ (constructFor sp ("_:" ++ b)).description = none
    ∧ (constructFor sp ("_:" ++ b)).glosses = []
    ∧ (entanglementFor sp ("_:" ++ b)).source = ""
    ∧ (entanglementFor sp ("_:" ++ b)).target = ""
    ∧ (characterFor sp ("_:" ++ b)).constructs = [] := by
  have hgov : ∀ π, get_object_value sp ("_:" ++ b) π = none :=
    fun π => get_object_value_blank sp b π
  have hfallback : parseIriOrEmpty ("_:" ++ b) = "" := by
    rw [parseIriOrEmpty, if_neg]
    rw [iriRefValid_blank]
    exact Bool.false_ne_true
  have hsubj : ∀ t ∈ sp.graph, term_equals t.s (Term.Iri "") = false := by
    intro t ht
    rw [Bool.eq_false_iff]
    intro hc
    exact hempty t ht (of_decide_eq_true hc)
  have hglosses : get_glosses sp ("_:" ++ b) = [] := by
    unfold get_glosses
    rw [hfallback]
    rw [List.filterMap_eq_nil_iff]
    intro t ht
    rw [hsubj t ht, Bool.false_and, if_neg Bool.false_ne_true]
  have hconstructs : get_character_constructs sp ("_:" ++ b) = [] := by
    unfold get_character_constructs
    rw [hfallback]
    rw [List.filterMap_eq_nil_iff]
    intro t ht
    rw [hsubj t ht, Bool.false_and, if_neg Bool.false_ne_true]
  refine ⟨rfl, hgov, ?_, ?_, hglosses, ?_, ?_, hconstructs⟩
  · show (get_object_value sp ("_:" ++ b) "rdfs:label").getD "" = ""
    rw [hgov]
    rfl
  · exact hgov "rdfs:comment"
  · show (get_object_value sp ("_:" ++ b) "sn:hasSource").getD "" = ""
    rw [hgov]
    rfl
  · show (get_object_value sp ("_:" ++ b) "sn:hasTarget").getD "" = ""
    rw [hgov]
    rfl

/-- Store for the C9 witness: an ordinary IRI subject with a gloss, so
that the store is nonempty and has no empty-IRI subject. -/
def spC9 : SemanticProcessor :=
  ⟨[⟨Term.Iri "https://example.org/A", make_term initNamespaces "sn:hasGloss",
     Term.LiteralDatatype "g" "https://www.w3.org/2001/XMLSchema#string"⟩],
   initNamespaces⟩

/-- C9 witness: a concrete blank-node id renders with the
underscore-colon form and all its lookups yield defaults. -/
theorem c9_blank_node_entity_witness :
    term_to_string (Term.BlankNode "n1") = "_:n1"
    ∧ get_object_value spC9 "_:n1" "rdfs:label" = none
    ∧ (constructFor spC9 "_:n1").label = ""
    ∧ (constructFor spC9 "_:n1").glosses = [] := by
  have h := c9_blank_node_entity spC9 "n1" (by decide)
  exact ⟨h.1, h.2.1 "rdfs:label", h.2.2.1, h.2.2.2.2.1⟩

/-- C10: clearing resets only the triple store: afterwards the count is
zero while the namespace registry is unchanged, so every registered
prefix still resolves to the same base and every namespaced string still
resolves to the same term. -/
theorem c10_clear_frame (sp : SemanticProcessor) :
    triple_count sp.clear = 0
    ∧ sp.clear.namespaces = sp.namespaces
    ∧ (∀ pfx, lookupNs sp.clear.namespaces pfx = lookupNs sp.namespaces pfx)
    ∧ (∀ str, make_term sp.clear.namespaces str = make_term sp.namespaces str) := by
  exact ⟨rfl, rfl, fun _ => rfl, fun _ => rfl⟩
